import Mathlib

/-!
# cpw.c : scripted password change through a piped child process

A shallow embedding of `src/cpw.c` and the properties of its validator,
line assembly, secret erasure, signal set-up and pipeline.

Conventions of the embedding.

* A `char` is represented by its byte value `0 .. 255` as a `Nat`.  The tests
  of `iscontrol` (`c < 0x20 || c > 0x7e`) give the same answer for a byte
  `0x80 .. 0xFF` whether `char` is signed (the value is negative, hence
  `< 0x20`) or unsigned (the value is `> 0x7e`).
* A C string argument (`char *s`) is the list of its characters before the
  terminating NUL (`CStr`); `strlen` of such an argument is the list length.
  The `int` variables that receive a `strlen` (`ls`, `la`) hold it exactly:
  `cpw` calls `aliens` on the literals `USERCHARS`, `PASSCHARS` and, after
  the length test, on strings of at most 512 characters.
* A character buffer in memory (`char line[LINELENGTH]`, a block returned by
  `strdup`) is the list of all its bytes (`Buf`), terminator included.
* The operating system is an oracle (`OS`) giving the value returned by each
  system call; the calls a function makes are recorded in a trace.
-/

namespace Cpw

/-! ## Constants (cpw.c lines 18-54) -/

/-- Characters of a C string argument, terminating NUL excluded. -/
abbrev CStr := List Nat

/-- All the bytes of a character buffer in memory. -/
abbrev Buf := List Nat

/-- Byte values of an ASCII string literal. -/
def ascii (s : String) : CStr := s.toList.map Char.toNat

def SUCCESS : Int := 0
def FAILURE : Int := 1

def READ_END : Nat := 0
def WRITE_END : Nat := 1

/-- End of string character. -/
def EOS : Nat := 0

def NEWLINESTRING : CStr := ascii "\n"

def LINELENGTH : Nat := 2048

def KRB_LIMIT : Nat := 512

def PASSWORD_LIMIT : Nat := 512

/-- Allowed characters in username / principal. -/
def USERCHARS : CStr := ascii "@_.-/"

/-- Allowed characters in password. -/
def PASSCHARS : CStr := ascii "~@*_.-+:?/\x7b\x7d[]"

/-! ## Outcomes -/

/-- How control leaves a piece of the program: the function returns a value,
the process terminates through `exit (status)` (after `diag` was printed on
stderr when it comes from `error`), the process image is replaced by a
successful `execve`, or a write went outside a buffer. -/
inductive Outcome (α : Type) where
  | ret (a : α)
  | exit (status : Int) (diag : Option String)
  | exec
  | outOfBounds
  deriving DecidableEq, Repr

/-- The function `error` (lines 56-69): print the message, `exit (FAILURE)`. -/
def error {α : Type} (format : String) : Outcome α :=
  Outcome.exit FAILURE (some format)

/-! ## Validator (lines 98-162) -/

/-- C library `isalnum` in the "C" locale (the program never calls
`setlocale`): ASCII digits and letters only. -/
def isalnum (c : Nat) : Bool :=
  (0x30 ≤ c && c ≤ 0x39) || (0x41 ≤ c && c ≤ 0x5a) || (0x61 ≤ c && c ≤ 0x7a)

/-- The function `iscontrol` (lines 98-108). -/
def iscontrol (c : Nat) : Bool :=
  if c < 0x20 || c > 0x7e then true else false

/-- The inner loop of `aliens` (lines 140-150): `found` starts false and is set
at every position of the allow-list holding `chs`; the loop has no break. -/
def aliensFound (chs : Nat) : CStr → Bool → Bool
  | [], found => found
  | cha :: rest, found => aliensFound chs rest (if chs = cha then true else found)

/-- The function `aliens` (lines 110-162): the outer loop over the characters
of `s`. -/
def aliens : CStr → CStr → Bool
  | [], _ => false
  | chs :: rest, a =>
    if !isalnum chs then
      if iscontrol chs then true
      else if !aliensFound chs a false then true
      else aliens rest a
    else aliens rest a

/-- The two checks of `cpw` on the user name (lines 444-452): the message of
the first `error` reached, `none` when both tests pass. -/
def cpwCheckUser (user : CStr) : Option String :=
  if user.length > KRB_LIMIT then some "Username too long"
  else if aliens user USERCHARS then some "Alien characters in username"
  else none

/-- The two checks of `cpw` on the password (lines 453-460). -/
def cpwCheckPassword (password : CStr) : Option String :=
  if password.length > PASSWORD_LIMIT then some "Password too long"
  else if aliens password PASSCHARS then some "Alien characters in password"
  else none

/-- The checks of `cpw` in program order (lines 444-460): the user name is
tested first and the first failing test ends the process. -/
def cpwChecks (user password : CStr) : Option String :=
  match cpwCheckUser user with
  | some m => some m
  | none => cpwCheckPassword password

/-- An ASCII digit or letter, by its code. -/
def AsciiAlnum (c : Nat) : Prop :=
  (0x30 ≤ c ∧ c ≤ 0x39) ∨ (0x41 ≤ c ∧ c ≤ 0x5a) ∨ (0x61 ≤ c ∧ c ≤ 0x7a)

instance (c : Nat) : Decidable (AsciiAlnum c) := by
  unfold AsciiAlnum
  infer_instance

/-! ## C strings in memory -/

/-- C library `strlen` on a buffer: the number of bytes before the first NUL. -/
def strlen (b : Buf) : Nat := (b.takeWhile (fun c => c != EOS)).length

/-- The C string held at the start of a buffer. -/
def cstr (b : Buf) : CStr := b.takeWhile (fun c => c != EOS)

/-- Store `bytes` into `b` from offset `off`; `none` when a byte would land
outside the buffer. -/
def poke (b : Buf) (off : Nat) (bytes : List Nat) : Option Buf :=
  if off + bytes.length ≤ b.length then
    some (b.take off ++ bytes ++ b.drop (off + bytes.length))
  else none

/-- C library `strcpy (dst, src)`: the characters of `src` and its NUL. -/
def strcpy (dst : Buf) (src : CStr) : Option Buf := poke dst 0 (src ++ [EOS])

/-- C library `strcat (dst, src)`: `src` and its NUL stored over the NUL of
the string in `dst`. -/
def strcat (dst : Buf) (src : CStr) : Option Buf := poke dst (strlen dst) (src ++ [EOS])

/-- C library `strdup (s)`: a fresh block of `strlen (s) + 1` bytes holding
the string and its NUL (the allocation is taken to succeed). -/
def strdup (s : Buf) : Buf := cstr s ++ [EOS]

/-- C library `memset (s, c, n)`. -/
def memset (s : Buf) (c n : Nat) : Buf := List.replicate n c ++ s.drop n

/-- The function `zerofree` (lines 86-96): the bytes of the block at the
moment it is handed to `free`. -/
def zerofree (s : Buf) : Buf :=
  let len := strlen s
  memset s 0 len

/-- The local array `char line[LINELENGTH]` of `cpw` on entry: `LINELENGTH`
bytes of indeterminate content. -/
def stackLine (garbage : Nat → Nat) : Buf := (List.range LINELENGTH).map garbage

/-- A password line of `cpw`: `*line = EOS; strcpy (line, password); strcat
(line, NEWLINESTRING); strdup (line)` (lines 472-475 and again 478-481).  Gives the buffer
afterwards and the duplicated block. -/
def cpwPasswordLine (line : Buf) (password : CStr) : Option (Buf × Buf) := do
  let line ← poke line 0 [EOS]
  let line ← strcpy line password
  let line ← strcat line NEWLINESTRING
  pure (line, strdup line)

/-- The assembly of the three lines in `cpw` (lines 462-484): the blocks
`lines[0]`, `lines[1]`, `lines[2]`, or `none` when a store leaves `line`. -/
def cpwBuild (line : Buf) (user password : CStr) : Option (List Buf) := do
  let line ← poke line 0 [EOS]
  let line ← strcpy line (ascii "cpw ")
  let line ← strcat line user
  let line ← strcat line NEWLINESTRING
  let l0 := strdup line
  let (line, l1) ← cpwPasswordLine line password
  let (_, l2) ← cpwPasswordLine line password
  pure [l0, l1, l2]

/-! ## Signals (lines 164-223, 432-442) -/

/-- Signal numbers of `<signal.h>` (Linux values). -/
def SIGHUP : Nat := 1
def SIGINT : Nat := 2
def SIGQUIT : Nat := 3
def SIGTRAP : Nat := 5
def SIGUSR1 : Nat := 10
def SIGPIPE : Nat := 13
def SIGTERM : Nat := 15
def SIGCHLD : Nat := 17
def SIGTTIN : Nat := 21
def SIGTTOU : Nat := 22

/-- The three handler functions of the program. -/
inductive Handler where
  | handchld
  | handpipe
  | sighand
  deriving DecidableEq, Repr

/-- What `sa_handler` can hold. -/
inductive Disposition where
  | SIG_DFL
  | SIG_IGN
  | handler (h : Handler)
  deriving DecidableEq, Repr

/-- The disposition of every signal number. -/
abbrev SigTable := Nat → Disposition

/-- The function `sighand` (lines 164-178). -/
def sighand (signo : Nat) : Outcome Unit :=
  if signo = SIGHUP || signo = SIGINT || signo = SIGQUIT || signo = SIGTERM then
    Outcome.exit FAILURE none
  else
    error "Interrupted, signal %d - confused"

/-- The function `handchld` (lines 180-186). -/
def handchld (_signo : Nat) : Outcome Unit := Outcome.ret ()

/-- The function `handpipe` (lines 188-194). -/
def handpipe (_signo : Nat) : Outcome Unit := Outcome.ret ()

/-- Running a handler function. -/
def Handler.run : Handler → Nat → Outcome Unit
  | Handler.handchld => Cpw.handchld
  | Handler.handpipe => Cpw.handpipe
  | Handler.sighand => Cpw.sighand

/-- Values returned to one call of `sig` by `sigemptyset` and `sigaction`. -/
structure SigRet where
  sigemptyset : Int
  sigaction : Int

/-- The function `sig` (lines 196-223). -/
def sig (r : SigRet) (s : Nat) (handler : Disposition) (t : SigTable) : Outcome SigTable :=
  if r.sigemptyset = -1 then error "Error calling sigemptyset - confused"
  else if r.sigaction = -1 then error "Error %d calling sigaction - confused"
  else Outcome.ret (fun n => if n = s then handler else t n)

/-- Sequencing: the second step runs when the first returns. -/
def Outcome.andThen {α β : Type} : Outcome α → (α → Outcome β) → Outcome β
  | Outcome.ret a, f => f a
  | Outcome.exit st d, _ => Outcome.exit st d
  | Outcome.exec, _ => Outcome.exec
  | Outcome.outOfBounds, _ => Outcome.outOfBounds

/-- The nine `sig` calls at the start of `cpw` (lines 432-442), in order;
`r k` holds the values returned to the `k`-th of them. -/
def cpwSignals (r : Nat → SigRet) (t : SigTable) : Outcome SigTable :=
  (sig (r 0) SIGCHLD (Disposition.handler Handler.handchld) t).andThen fun t =>
  (sig (r 1) SIGTTOU Disposition.SIG_IGN t).andThen fun t =>
  (sig (r 2) SIGTTIN Disposition.SIG_IGN t).andThen fun t =>
  (sig (r 3) SIGTRAP Disposition.SIG_IGN t).andThen fun t =>
  (sig (r 4) SIGPIPE (Disposition.handler Handler.handpipe) t).andThen fun t =>
  (sig (r 5) SIGHUP (Disposition.handler Handler.sighand) t).andThen fun t =>
  (sig (r 6) SIGTERM (Disposition.handler Handler.sighand) t).andThen fun t =>
  (sig (r 7) SIGQUIT (Disposition.handler Handler.sighand) t).andThen fun t =>
  sig (r 8) SIGUSR1 (Disposition.handler Handler.sighand) t

/-! ## The pipeline (lines 225-391) -/

def STDIN_FILENO : Int := 0
def STDOUT_FILENO : Int := 1

/-- The operating system as seen by one process: `ret k` is the value
returned by its `k`-th system call (`k = 0, 1, ...`), `pipefd` the two
descriptors stored by `pipe`, `wstatus` the status stored by `waitpid`,
`execveReturns` whether `execve` comes back (it does only on failure). -/
structure OS where
  ret : Nat → Int
  pipefd : Nat → Int
  wstatus : Nat
  execveReturns : Bool

/-- A system call with its arguments. -/
inductive Call where
  | pipe
  | fork
  | dup (fd : Int)
  | dup2 (oldfd newfd : Int)
  | close (fd : Int)
  | write (fd : Int) (buf : CStr)
  | waitpid (pid : Int)
  | execve
  deriving DecidableEq, Repr

/-- A run of `cmd`: the system calls made, in order, and how it ended. -/
structure Run where
  calls : List Call
  out : Outcome Int
  deriving DecidableEq, Repr

/-- POSIX `WIFEXITED` (Linux encoding of `<sys/wait.h>`): the low seven bits
of the status are zero. -/
def WIFEXITED (w : Nat) : Bool := (w &&& 0x7f) = 0

/-- POSIX `WIFSIGNALED` (Linux encoding):
`((signed char) ((w & 0x7f) + 1) >> 1) > 0`. -/
def WIFSIGNALED (w : Nat) : Bool :=
  let t : Int := ((w &&& 0x7f) + 1 : Nat)
  let sc : Int := if t ≥ 128 then t - 256 else t
  sc / 2 > 0

/-- POSIX `WEXITSTATUS` (Linux encoding): `(w & 0xff00) >> 8`. -/
def WEXITSTATUS (w : Nat) : Nat := (w &&& 0xff00) >>> 8

/-- The end of `cmd` (lines 371-390): the classification of the wait status. -/
def cmdStatus (wstatus : Nat) : Outcome Int :=
  if WIFEXITED wstatus then Outcome.ret (WEXITSTATUS wstatus : Int)
  else if WIFSIGNALED wstatus then error "Child process %d exited on %d"
  else error "Weird exit from waitpid - confused"

/-- The child branch of `cmd` (lines 272-301); its calls are numbered from 2
in the child process. -/
def cmdChild (os : OS) : Run :=
  let c1 := [Call.dup2 (os.pipefd READ_END) STDIN_FILENO]
  if os.ret 2 = -1 then ⟨c1, error "Error %d calling dup2 in child"⟩ else
  let c2 := c1 ++ [Call.close (os.pipefd WRITE_END)]
  if os.ret 3 ≠ 0 then ⟨c2, error "Error %d closing write end of pipe in child"⟩ else
  let c3 := c2 ++ [Call.close (os.pipefd READ_END)]
  if os.ret 4 ≠ 0 then ⟨c3, error "Error %d closing read end of pipe in child"⟩ else
  let c4 := c3 ++ [Call.execve]
  if os.execveReturns then
    if os.ret 5 = -1 then ⟨c4, error "Execve failed with %d"⟩
    else ⟨c4, Outcome.exit SUCCESS none⟩
  else ⟨c4, Outcome.exec⟩

/-- The loop sending the lines (lines 332-348), the first `write` being call
number `k`: the calls made and, when the loop is left through `error`, the
outcome. -/
def cmdSend (os : OS) : Nat → List CStr → List Call × Option (Outcome Int)
  | _, [] => ([], none)
  | k, line :: rest =>
    let linelength := line.length
    let writestatus := os.ret k
    let c := Call.write STDOUT_FILENO line
    if writestatus = -1 then ([c], some (error "Error %d writing in cmd"))
    else if writestatus ≠ (linelength : Int) then
      ([c], some (error "Short write in cmd - confused"))
    else
      let r := cmdSend os (k + 1) rest
      (c :: r.1, r.2)

/-- The parent branch of `cmd` (lines 303-391).  `lines` is `none` for a NULL
pointer, else the strings before the NULL entry. -/
def cmdParent (os : OS) (pid : Int) (lines : Option (List CStr)) : Run :=
  let stdout2 := os.ret 2
  let c1 := [Call.dup STDOUT_FILENO, Call.dup2 (os.pipefd WRITE_END) STDOUT_FILENO]
  if os.ret 3 = -1 then ⟨c1, error "Error %d calling dup2 in child"⟩ else
  let c2 := c1 ++ [Call.close (os.pipefd READ_END)]
  if os.ret 4 ≠ 0 then ⟨c2, error "Error %d closing read end of pipe in parent"⟩ else
  let c3 := c2 ++ [Call.close (os.pipefd WRITE_END)]
  if os.ret 5 ≠ 0 then ⟨c3, error "Error %d closing read end of pipe in parent"⟩ else
  match lines with
  | none => ⟨c3, error "No lines"⟩
  | some ls =>
    let s := cmdSend os 6 ls
    let c4 := c3 ++ s.1
    match s.2 with
    | some e => ⟨c4, e⟩
    | none =>
      let k := 6 + ls.length
      let c5 := c4 ++ [Call.close STDOUT_FILENO]
      if os.ret k = -1 then ⟨c5, error "Error %d closing output in cmd"⟩ else
      let c6 := c5 ++ [Call.dup2 stdout2 STDOUT_FILENO]
      if os.ret (k + 1) = -1 then ⟨c6, error "Error %d restoring output in cmd"⟩ else
      let c7 := c6 ++ [Call.waitpid pid]
      if os.ret (k + 2) = -1 then ⟨c7, error "Error %d returned by waitpid"⟩ else
      ⟨c7, cmdStatus os.wstatus⟩

/-- The function `cmd` (lines 225-391); the program and its arguments do not
influence the parent. -/
def cmd (os : OS) (lines : Option (List CStr)) : Run :=
  if os.ret 0 = -1 then ⟨[Call.pipe], error "Error %d creating pipe"⟩ else
  let pid := os.ret 1
  if pid < 0 then ⟨[Call.pipe, Call.fork], error "Error %d forking"⟩
  else if pid = 0 then
    let r := cmdChild os
    ⟨[Call.pipe, Call.fork] ++ r.calls, r.out⟩
  else
    let r := cmdParent os pid lines
    ⟨[Call.pipe, Call.fork] ++ r.calls, r.out⟩

/-- The bytes handed to `write` on descriptor `fd`, in order. -/
def written (fd : Int) : List Call → List Nat
  | [] => []
  | Call.write fd2 buf :: rest => (if fd2 = fd then buf else []) ++ written fd rest
  | _ :: rest => written fd rest

/-- Every `write` of the loop returns the length asked for, the first being
call number `k`. -/
def writesComplete (os : OS) : Nat → List CStr → Bool
  | _, [] => true
  | k, line :: rest => decide (os.ret k = (line.length : Int)) && writesComplete os (k + 1) rest

/-- No call of the parent reports a failure that `cmd` tests for, and every
write is complete: the run reaches the classification of the wait status. -/
def cmdPasses (os : OS) (lines : List CStr) : Bool :=
  decide (os.ret 0 ≠ -1) && decide (0 < os.ret 1) && decide (os.ret 3 ≠ -1) &&
  decide (os.ret 4 = 0) && decide (os.ret 5 = 0) && writesComplete os 6 lines &&
  decide (os.ret (6 + lines.length) ≠ -1) && decide (os.ret (6 + lines.length + 1) ≠ -1) &&
  decide (os.ret (6 + lines.length + 2) ≠ -1)

/-! ## `cpw` and `main` (lines 393-525) -/

/-- Everything outside the program that a run of `cpw` depends on. -/
structure World where
  sigret : Nat → SigRet
  sigtable : SigTable
  garbage : Nat → Nat
  os : OS

/-- A run of `cpw` or `main`: how it ended, the system calls `cmd` made, and
the three blocks `lines[0..2]` as they are when control leaves `cpw` (for a
block released by `zerofree`, its bytes when `free` is called); no block
when none was allocated. -/
structure CpwRun where
  out : Outcome Int
  calls : List Call
  heap : List Buf

/-- The function `cpw` (lines 393-494). -/
def cpw (w : World) (user password : CStr) : CpwRun :=
  match cpwSignals w.sigret w.sigtable with
  | Outcome.exit st d => ⟨Outcome.exit st d, [], []⟩
  | Outcome.exec => ⟨Outcome.exec, [], []⟩
  | Outcome.outOfBounds => ⟨Outcome.outOfBounds, [], []⟩
  | Outcome.ret _ =>
    match cpwChecks user password with
    | some m => ⟨error m, [], []⟩
    | none =>
      match cpwBuild (stackLine w.garbage) user password with
      | none => ⟨Outcome.outOfBounds, [], []⟩
      | some lines =>
        let r := cmd w.os (some (lines.map cstr))
        match r.out with
        | Outcome.ret status => ⟨Outcome.ret status, r.calls, lines.map zerofree⟩
        | o => ⟨o, r.calls, lines⟩

/-- The function `main` (lines 496-525); `argv` holds the `argc` arguments. -/
def main (w : World) (argv : List CStr) : CpwRun :=
  if argv.length ≠ 3 then ⟨error "You have to specify username and password", [], []⟩
  else
    let user := argv.getD 1 []
    if !(ascii "s_").isPrefixOf user && !(ascii "t_").isPrefixOf user then
      ⟨error "Username does not look like a SweStore username", [], []⟩
    else
      let password := argv.getD 2 []
      let r := cpw w user password
      match r.out with
      | Outcome.ret status => ⟨Outcome.exit status none, r.calls, r.heap⟩
      | o => ⟨o, r.calls, r.heap⟩

/-- The diagnostics `cmd` can print through `error`. -/
def cmdDiags : List String :=
  ["Error %d creating pipe", "Error %d forking", "Error %d calling dup2 in child",
   "Error %d closing write end of pipe in child", "Error %d closing read end of pipe in child",
   "Execve failed with %d", "Error %d closing read end of pipe in parent", "No lines",
   "Error %d writing in cmd", "Short write in cmd - confused",
   "Error %d closing output in cmd", "Error %d restoring output in cmd",
   "Error %d returned by waitpid", "Child process %d exited on %d",
   "Weird exit from waitpid - confused"]

/-- The three strings `cpw` assembles for `user` and `password`. -/
def cpwLines (user password : CStr) : List CStr :=
  [ascii "cpw " ++ user ++ ascii "\n", password ++ ascii "\n", password ++ ascii "\n"]

/-- Both system calls of every `sig` call succeed. -/
def sigretOk : Nat → SigRet := fun _ => ⟨0, 0⟩

/-- Every signal with its default action. -/
def sigtableDefault : SigTable := fun _ => Disposition.SIG_DFL

/-- An operating system in which `pipe` fails (and every later call would). -/
def osPipeFails : OS := ⟨fun _ => -1, fun _ => -1, 0, true⟩

/-- A world in which the signal handlers are installed and `pipe` fails. -/
def worldPipeFails : World := ⟨sigretOk, sigtableDefault, fun _ => 0xAA, osPipeFails⟩

/-- An operating system in which every call of the parent succeeds for the
three lines of user "s_alice" with password "Secr3t", the child ending
with `exit (3)`. -/
def osExit3 : OS :=
  ⟨fun k => match k with
    | 0 => 0 | 1 => 4711 | 2 => 5 | 3 => 1 | 4 => 0 | 5 => 0
    | 6 => 12 | 7 => 7 | 8 => 7 | 9 => 0 | 10 => 1 | 11 => 4711 | _ => 0,
   fun i => if i = READ_END then 3 else 4, 0x300, true⟩

/-- A world in which everything succeeds and the child exits with 3. -/
def worldExit3 : World := ⟨sigretOk, sigtableDefault, fun _ => 0xAA, osExit3⟩

/-- The three lines of the scenario driving `cat`. -/
def catLines : List CStr := [ascii "cpw alice\n", ascii "Secr3t!\n", ascii "Secr3t!\n"]

/-- An operating system in which every call of the parent succeeds and every
write of `catLines` is complete; the child exits with 0. -/
def osCat : OS :=
  ⟨fun k => match k with
    | 0 => 0 | 1 => 4711 | 2 => 5 | 3 => 1 | 4 => 0 | 5 => 0
    | 6 => 10 | 7 => 8 | 8 => 8 | 9 => 0 | 10 => 1 | 11 => 4711 | _ => 0,
   fun i => if i = READ_END then 3 else 4, 0, true⟩

/-- As `osCat`, but `dup (STDOUT_FILENO)` fails (call 2 returns -1), so that
the later `dup2 (stdout2, STDOUT_FILENO)` of the invalid descriptor fails
too (call 10 returns -1). -/
def osDupFails : OS :=
  ⟨fun k => match k with
    | 0 => 0 | 1 => 4711 | 2 => -1 | 3 => 1 | 4 => 0 | 5 => 0
    | 6 => 10 | 7 => 8 | 8 => 8 | 9 => 0 | 10 => -1 | _ => 0,
   fun i => if i = READ_END then 3 else 4, 0, true⟩

end Cpw

namespace Cpw

theorem aliensFound_true (chs : Nat) (a : CStr) : aliensFound chs a true = true := by
  induction a with
  | nil => rfl
  | cons cha rest ih => simp [aliensFound, ih]

theorem aliensFound_iff (chs : Nat) (a : CStr) :
    aliensFound chs a false = true ↔ chs ∈ a := by
  induction a with
  | nil => simp [aliensFound]
  | cons cha rest ih =>
    by_cases h : chs = cha
    · simp [aliensFound, h, aliensFound_true]
    · simp [aliensFound, h, ih]

theorem isalnum_not_control (c : Nat) (h : isalnum c = true) : iscontrol c = false := by
  simp only [isalnum, Bool.or_eq_true, Bool.and_eq_true, decide_eq_true_eq] at h
  simp only [iscontrol, Bool.or_eq_true, decide_eq_true_eq]
  rw [if_neg]
  omega

theorem aliens_false_iff (s a : CStr) :
    aliens s a = false ↔
      ∀ c ∈ s, isalnum c = true ∨ (iscontrol c = false ∧ c ∈ a) := by
  induction s with
  | nil => simp [aliens]
  | cons chs rest ih =>
    simp only [aliens, List.mem_cons, forall_eq_or_imp]
    by_cases h1 : isalnum chs = true
    · simp [h1, ih]
    · simp only [Bool.not_eq_true] at h1
      by_cases h2 : iscontrol chs = true
      · simp [h1, h2]
      · simp only [Bool.not_eq_true] at h2
        by_cases h3 : chs ∈ a
        · have := (aliensFound_iff chs a).2 h3
          simp [h1, h2, h3, this, ih]
        · have : aliensFound chs a false = false := by
            rw [← Bool.not_eq_true, aliensFound_iff]; exact h3
          simp [h1, h2, h3, this]

theorem isalnum_iff (c : Nat) : isalnum c = true ↔ AsciiAlnum c := by
  simp [isalnum, AsciiAlnum, or_assoc]

theorem iscontrol_false_iff (c : Nat) : iscontrol c = false ↔ (0x20 ≤ c ∧ c ≤ 0x7e) := by
  simp only [iscontrol, Bool.or_eq_true, decide_eq_true_eq]
  constructor
  · intro h
    by_contra hc
    rw [if_pos (by omega)] at h
    exact Bool.noConfusion h
  · intro h
    rw [if_neg (by omega)]

theorem alnum_in_range (c : Nat) (h : AsciiAlnum c) : 0x20 ≤ c ∧ c ≤ 0x7e := by
  unfold AsciiAlnum at h
  omega

theorem aliens_false_spec (s a : CStr) :
    aliens s a = false ↔
      ∀ c ∈ s, AsciiAlnum c ∨ ((0x20 ≤ c ∧ c ≤ 0x7e) ∧ c ∈ a) := by
  rw [aliens_false_iff]
  constructor
  · intro h c hc
    rcases h c hc with h1 | ⟨h2, h3⟩
    · exact Or.inl ((isalnum_iff c).1 h1)
    · exact Or.inr ⟨(iscontrol_false_iff c).1 h2, h3⟩
  · intro h c hc
    rcases h c hc with h1 | ⟨h2, h3⟩
    · exact Or.inl ((isalnum_iff c).2 h1)
    · exact Or.inr ⟨(iscontrol_false_iff c).2 h2, h3⟩

theorem userchars_printable : ∀ c ∈ USERCHARS, 0x20 ≤ c ∧ c ≤ 0x7e := by decide

theorem passchars_printable : ∀ c ∈ PASSCHARS, 0x20 ≤ c ∧ c ≤ 0x7e := by decide

theorem cpwCheckUser_long (user : CStr) :
    cpwCheckUser user = some "Username too long" ↔ 512 < user.length := by
  unfold cpwCheckUser KRB_LIMIT
  by_cases h : user.length > 512
  · simp [h]
  · by_cases h2 : aliens user USERCHARS = true
    · simp only [h, h2, if_false, if_true]
      constructor
      · intro hh; exact absurd (Option.some.inj hh) (by decide)
      · intro hh; simp at hh
    · simp [h, h2]

theorem cpwCheckPassword_long (password : CStr) :
    cpwCheckPassword password = some "Password too long" ↔ 512 < password.length := by
  unfold cpwCheckPassword PASSWORD_LIMIT
  by_cases h : password.length > 512
  · simp [h]
  · by_cases h2 : aliens password PASSCHARS = true
    · simp only [h, h2, if_false, if_true]
      constructor
      · intro hh; exact absurd (Option.some.inj hh) (by decide)
      · intro hh; simp at hh
    · simp [h, h2]

theorem cpwCheckUser_none (user : CStr) :
    cpwCheckUser user = none ↔ user.length ≤ 512 ∧ aliens user USERCHARS = false := by
  unfold cpwCheckUser KRB_LIMIT
  by_cases h : user.length > 512
  · simp [h]
  · by_cases h2 : aliens user USERCHARS = true
    · simp [h, h2]
    · simp only [Bool.not_eq_true] at h2
      simp [h, h2]
      omega

theorem cpwCheckPassword_none (password : CStr) :
    cpwCheckPassword password = none ↔
      password.length ≤ 512 ∧ aliens password PASSCHARS = false := by
  unfold cpwCheckPassword PASSWORD_LIMIT
  by_cases h : password.length > 512
  · simp [h]
  · by_cases h2 : aliens password PASSCHARS = true
    · simp [h, h2]
    · simp only [Bool.not_eq_true] at h2
      simp [h, h2]
      omega

theorem cpwChecks_none (user password : CStr) :
    cpwChecks user password = none ↔
      (user.length ≤ 512 ∧ aliens user USERCHARS = false) ∧
      (password.length ≤ 512 ∧ aliens password PASSCHARS = false) := by
  unfold cpwChecks
  cases h : cpwCheckUser user with
  | some m =>
    have : ¬ (user.length ≤ 512 ∧ aliens user USERCHARS = false) := by
      rw [← cpwCheckUser_none, h]; simp
    simp [this]
  | none =>
    have := (cpwCheckUser_none user).1 h
    simp [this, cpwCheckPassword_none]

theorem aliens_sound_aux (s a : CStr) : aliens s a = false →
    ∀ c ∈ s, (0x20 ≤ c ∧ c ≤ 0x7e) ∧ (AsciiAlnum c ∨ c ∈ a) := by
  intro h c hc
  rcases (aliens_false_spec s a).1 h c hc with h1 | ⟨h2, h3⟩
  · exact ⟨alnum_in_range c h1, Or.inl h1⟩
  · exact ⟨h2, Or.inr h3⟩

/-- C1. Soundness of the validator: if `s` holds a character that is a control
character (below 0x20 or above 0x7E) or that is neither an ASCII letter or
digit nor a member of the allow-list `a`, then `aliens s a` is true, whatever
`a` holds; equivalently, when `aliens s a` is false every character of `s`
lies in 0x20..0x7E and is alphanumeric or in `a`. -/
theorem aliens_sound (s a : CStr) :
    ((∃ c ∈ s, (c < 0x20 ∨ c > 0x7e) ∨ ¬ (AsciiAlnum c ∨ c ∈ a)) → aliens s a = true) ∧
    (aliens s a = false → ∀ c ∈ s, (0x20 ≤ c ∧ c ≤ 0x7e) ∧ (AsciiAlnum c ∨ c ∈ a)) := by
  have key := aliens_sound_aux s a
  refine ⟨?_, key⟩
  rintro ⟨c, hc, hbad⟩
  by_contra hne
  have hf : aliens s a = false := by simpa using hne
  have := key hf c hc
  rcases hbad with h | h
  · omega
  · exact h this.2

/-- The identity string "s_ali!ce" holds `!`, which is neither alphanumeric
nor in the identity allow-list `USERCHARS`, and is rejected. -/
theorem aliens_sound_witness :
    (∃ c ∈ ascii "s_ali!ce", (c < 0x20 ∨ c > 0x7e) ∨ ¬ (AsciiAlnum c ∨ c ∈ USERCHARS)) ∧
    aliens (ascii "s_ali!ce") USERCHARS = true :=
  have h : ∃ c ∈ ascii "s_ali!ce",
      (c < 0x20 ∨ c > 0x7e) ∨ ¬ (AsciiAlnum c ∨ c ∈ USERCHARS) :=
    ⟨0x21, by decide, Or.inr (by unfold AsciiAlnum; decide)⟩
  ⟨h, (aliens_sound (ascii "s_ali!ce") USERCHARS).1 h⟩

/-- C2 as stated fails: with the allow-list holding a TAB (0x09), the string
made of one TAB has length 1 <= 512 and only allow-listed characters, yet
`aliens` rejects it. -/
theorem aliens_complete_counterexample :
    ([9] : CStr).length ≤ 512 ∧ (∀ c ∈ ([9] : CStr), AsciiAlnum c ∨ c ∈ ([9] : CStr)) ∧
    aliens [9] [9] = true := by
  refine ⟨by decide, ?_, by decide⟩
  intro c hc
  exact Or.inr hc

/-- C2, amended. Completeness of the validator: for every allow-list `a`, limit
`max` and string `s` of length at most `max` whose characters are each an
ASCII letter, an ASCII digit, or a member of `a` lying in 0x20..0x7E, the
length test does not fire and `aliens s a` is false.  For the identity and
the secret policy, whose allow-lists hold printable characters only,
membership alone suffices and the checks of `cpw` pass. -/
theorem aliens_complete :
    (∀ (a : CStr) (max : Nat) (s : CStr), s.length ≤ max →
      (∀ c ∈ s, AsciiAlnum c ∨ (c ∈ a ∧ 0x20 ≤ c ∧ c ≤ 0x7e)) →
      ¬ (s.length > max) ∧ aliens s a = false) ∧
    (∀ s : CStr, s.length ≤ 512 → (∀ c ∈ s, AsciiAlnum c ∨ c ∈ USERCHARS) →
      ¬ (s.length > KRB_LIMIT) ∧ aliens s USERCHARS = false ∧ cpwCheckUser s = none) ∧
    (∀ s : CStr, s.length ≤ 512 → (∀ c ∈ s, AsciiAlnum c ∨ c ∈ PASSCHARS) →
      ¬ (s.length > PASSWORD_LIMIT) ∧ aliens s PASSCHARS = false ∧
      cpwCheckPassword s = none) := by
  refine ⟨?_, ?_, ?_⟩
  · intro a max s hlen hch
    refine ⟨by omega, (aliens_false_spec s a).2 ?_⟩
    intro c hc
    rcases hch c hc with h | ⟨h1, h2⟩
    · exact Or.inl h
    · exact Or.inr ⟨h2, h1⟩
  · intro s hlen hch
    have hal : aliens s USERCHARS = false := by
      refine (aliens_false_spec s USERCHARS).2 ?_
      intro c hc
      rcases hch c hc with h | h
      · exact Or.inl h
      · exact Or.inr ⟨userchars_printable c h, h⟩
    exact ⟨by unfold KRB_LIMIT; omega, hal, (cpwCheckUser_none s).2 ⟨hlen, hal⟩⟩
  · intro s hlen hch
    have hal : aliens s PASSCHARS = false := by
      refine (aliens_false_spec s PASSCHARS).2 ?_
      intro c hc
      rcases hch c hc with h | h
      · exact Or.inl h
      · exact Or.inr ⟨passchars_printable c h, h⟩
    exact ⟨by unfold PASSWORD_LIMIT; omega, hal, (cpwCheckPassword_none s).2 ⟨hlen, hal⟩⟩

/-- The identity "s_alice@REALM.SE" under the identity policy and the secret
"Secr3t?" under the secret policy pass. -/
theorem aliens_complete_witness :
    aliens (ascii "s_alice@REALM.SE") USERCHARS = false ∧
    cpwCheckUser (ascii "s_alice@REALM.SE") = none ∧
    cpwCheckPassword (ascii "Secr3t?") = none :=
  ⟨(aliens_complete.1 USERCHARS 512 (ascii "s_alice@REALM.SE") (by decide) (by decide)).2,
   (aliens_complete.2.1 (ascii "s_alice@REALM.SE") (by decide) (by decide)).2.2,
   (aliens_complete.2.2 (ascii "Secr3t?") (by decide) (by decide)).2.2⟩

/-! ### Strings in buffers -/

theorem cstr_length_le (s : List Nat) : (cstr s).length ≤ s.length := by
  induction s with
  | nil => simp [cstr]
  | cons x s ih =>
    unfold cstr at ih ⊢
    by_cases h : (x != EOS) = true
    · simp only [List.takeWhile_cons, h, if_true, List.length_cons]; omega
    · simp [List.takeWhile_cons, h]

theorem cstr_append_eos (s t : List Nat) : cstr (s ++ EOS :: t) = cstr s := by
  induction s with
  | nil => simp [cstr, List.takeWhile_cons]
  | cons x s ih =>
    unfold cstr at ih ⊢
    by_cases h : (x != EOS) = true
    · simp only [List.cons_append, List.takeWhile_cons, h, if_true, ih]
    · simp [List.takeWhile_cons, h]

theorem cstr_cstr_append (b t : List Nat) : cstr (cstr b ++ t) = cstr b ++ cstr t := by
  induction b with
  | nil => simp [cstr]
  | cons x b ih =>
    unfold cstr at ih ⊢
    by_cases h : (x != EOS) = true
    · simp only [List.takeWhile_cons, h, if_true, List.cons_append, ih]
    · simp [List.takeWhile_cons, h]

theorem take_strlen (b : List Nat) : b.take (strlen b) = cstr b := by
  induction b with
  | nil => simp [cstr, strlen]
  | cons x b ih =>
    unfold cstr strlen at ih ⊢
    by_cases h : (x != EOS) = true
    · simp only [List.takeWhile_cons, h, if_true, List.length_cons, List.take_succ_cons, ih]
    · simp [List.takeWhile_cons, h]

theorem cstr_eq_self (s : List Nat) (h : ∀ c ∈ s, c ≠ EOS) : cstr s = s := by
  unfold cstr
  rw [List.takeWhile_eq_self_iff]
  intro c hc
  simpa using h c hc

theorem poke_spec (b : Buf) (off : Nat) (bytes : List Nat) (h : off + bytes.length ≤ b.length) :
    ∃ b2, poke b off bytes = some b2 ∧ b2.length = b.length ∧
      b2 = b.take off ++ bytes ++ b.drop (off + bytes.length) := by
  refine ⟨_, by rw [poke, if_pos h], ?_, rfl⟩
  simp only [List.length_append, List.length_take, List.length_drop]
  omega

theorem strcpy_spec (b : Buf) (src : CStr) (h : src.length + 1 ≤ b.length) :
    ∃ b2, strcpy b src = some b2 ∧ b2.length = b.length ∧ cstr b2 = cstr src := by
  obtain ⟨b2, h1, h2, h3⟩ := poke_spec b 0 (src ++ [EOS]) (by simp; omega)
  refine ⟨b2, h1, h2, ?_⟩
  rw [h3]
  simp only [List.take_zero, List.nil_append, List.append_assoc, List.singleton_append]
  exact cstr_append_eos _ _

theorem strcat_spec (b : Buf) (src : CStr) (h : strlen b + src.length + 1 ≤ b.length) :
    ∃ b2, strcat b src = some b2 ∧ b2.length = b.length ∧ cstr b2 = cstr b ++ cstr src := by
  obtain ⟨b2, h1, h2, h3⟩ := poke_spec b (strlen b) (src ++ [EOS]) (by simp; omega)
  refine ⟨b2, h1, h2, ?_⟩
  rw [h3, take_strlen]
  simp only [List.append_assoc, List.singleton_append]
  rw [cstr_cstr_append, cstr_append_eos]

theorem strlen_eq (b : Buf) : strlen b = (cstr b).length := rfl

theorem cstr_newline : cstr NEWLINESTRING = [10] := by decide

theorem cstr_cpw : cstr (ascii "cpw ") = ascii "cpw " := by decide

theorem stackLine_length (g : Nat → Nat) : (stackLine g).length = LINELENGTH := by
  simp [stackLine]

theorem cpwPasswordLine_spec (line : Buf) (password : CStr)
    (h : password.length + 2 ≤ line.length) :
    ∃ line2, cpwPasswordLine line password = some (line2, cstr password ++ [10, EOS]) ∧
      line2.length = line.length := by
  obtain ⟨b0, e0, n0, -⟩ := poke_spec line 0 [EOS] (by simp; omega)
  obtain ⟨b1, e1, n1, c1⟩ := strcpy_spec b0 password (by omega)
  have hl := cstr_length_le password
  obtain ⟨b2, e2, n2, c2⟩ := strcat_spec b1 NEWLINESTRING
    (by rw [strlen_eq, c1]; simp [NEWLINESTRING, ascii]; omega)
  refine ⟨b2, ?_, by omega⟩
  simp [cpwPasswordLine, e0, e1, e2, strdup, c2, c1, cstr_newline]

theorem cpwBuild_spec (line : Buf) (user password : CStr)
    (hu : user.length + 6 ≤ line.length) (hp : password.length + 2 ≤ line.length) :
    cpwBuild line user password =
      some [ascii "cpw " ++ cstr user ++ [10, EOS], cstr password ++ [10, EOS],
        cstr password ++ [10, EOS]] := by
  obtain ⟨b0, e0, n0, -⟩ := poke_spec line 0 [EOS] (by simp; omega)
  obtain ⟨b1, e1, n1, c1⟩ := strcpy_spec b0 (ascii "cpw ") (by simp [ascii]; omega)
  have hl := cstr_length_le user
  obtain ⟨b2, e2, n2, c2⟩ := strcat_spec b1 user
    (by rw [strlen_eq, c1, cstr_cpw]; simp [ascii]; omega)
  obtain ⟨b3, e3, n3, c3⟩ := strcat_spec b2 NEWLINESTRING
    (by rw [strlen_eq, c2, c1, cstr_cpw]; simp [NEWLINESTRING, ascii]; omega)
  obtain ⟨b4, e4, n4⟩ := cpwPasswordLine_spec b3 password (by omega)
  obtain ⟨b5, e5, -⟩ := cpwPasswordLine_spec b4 password (by omega)
  simp [cpwBuild, e0, e1, e2, e3, e4, e5, strdup, c3, c2, c1, cstr_cpw, cstr_newline]

theorem aliens_false_no_eos (s a : CStr) (h : aliens s a = false) : ∀ c ∈ s, c ≠ EOS := by
  intro c hc
  have := ((aliens_sound_aux s a) h c hc).1
  unfold EOS
  omega

/-! ### The pipeline -/

theorem cmdSend_complete (os : OS) (lines : List CStr) :
    ∀ k, writesComplete os k lines = true →
      cmdSend os k lines = (lines.map (Call.write STDOUT_FILENO), none) := by
  induction lines with
  | nil => intro k _; rfl
  | cons line rest ih =>
    intro k h
    simp only [writesComplete, Bool.and_eq_true, decide_eq_true_eq] at h
    have h1 : os.ret k ≠ -1 := by rw [h.1]; omega
    simp [cmdSend, h1, h.1, ih (k + 1) h.2]

theorem cmdSend_diag (os : OS) (lines : List CStr) :
    ∀ k, (cmdSend os k lines).2 = none ∨
      (cmdSend os k lines).2 = some (error "Error %d writing in cmd") ∨
      (cmdSend os k lines).2 = some (error "Short write in cmd - confused") := by
  induction lines with
  | nil => intro k; exact Or.inl rfl
  | cons line rest ih =>
    intro k
    simp only [cmdSend]
    split_ifs
    · exact Or.inr (Or.inl rfl)
    · exact Or.inr (Or.inr rfl)
    · exact ih (k + 1)

theorem cmdStatus_diag (w : Nat) (st : Int) (m : Option String)
    (h : cmdStatus w = Outcome.exit st m) : st = FAILURE ∧ ∃ d ∈ cmdDiags, m = some d := by
  unfold cmdStatus at h
  split_ifs at h
  all_goals
    simp only [error, Outcome.exit.injEq] at h
    refine ⟨h.1.symm, _, ?_, h.2.symm⟩
    decide

theorem cmdParent_diag (os : OS) (pid : Int) (lines : Option (List CStr)) (st : Int)
    (m : Option String) (h : (cmdParent os pid lines).out = Outcome.exit st m) :
    st = FAILURE ∧ ∃ d ∈ cmdDiags, m = some d := by
  unfold cmdParent at h
  simp only at h
  split_ifs at h
  any_goals
    simp only [error, Outcome.exit.injEq] at h
    refine ⟨h.1.symm, _, ?_, h.2.symm⟩
    decide
  cases lines with
  | none =>
    simp only [error, Outcome.exit.injEq] at h
    refine ⟨h.1.symm, _, ?_, h.2.symm⟩
    decide
  | some ls =>
    simp only at h
    rcases cmdSend_diag os ls 6 with hs | hs | hs
    · rw [hs] at h
      simp only at h
      split_ifs at h
      any_goals
        simp only [error, Outcome.exit.injEq] at h
        refine ⟨h.1.symm, _, ?_, h.2.symm⟩
        decide
      exact cmdStatus_diag _ _ _ h
    · rw [hs] at h
      simp only [error, Outcome.exit.injEq] at h
      refine ⟨h.1.symm, _, ?_, h.2.symm⟩
      decide
    · rw [hs] at h
      simp only [error, Outcome.exit.injEq] at h
      refine ⟨h.1.symm, _, ?_, h.2.symm⟩
      decide

theorem cmdPasses_run (os : OS) (lines : List CStr) (h : cmdPasses os lines = true) :
    cmd os (some lines) =
      ⟨[Call.pipe, Call.fork, Call.dup STDOUT_FILENO,
          Call.dup2 (os.pipefd WRITE_END) STDOUT_FILENO, Call.close (os.pipefd READ_END),
          Call.close (os.pipefd WRITE_END)] ++
        lines.map (Call.write STDOUT_FILENO) ++
        [Call.close STDOUT_FILENO, Call.dup2 (os.ret 2) STDOUT_FILENO, Call.waitpid (os.ret 1)],
       cmdStatus os.wstatus⟩ := by
  simp only [cmdPasses, Bool.and_eq_true, decide_eq_true_eq] at h
  obtain ⟨⟨⟨⟨⟨⟨⟨⟨h0, h1⟩, h3⟩, h4⟩, h5⟩, hw⟩, h6⟩, h7⟩, h8⟩ := h
  have h1a : ¬ os.ret 1 < 0 := by omega
  have h1b : os.ret 1 ≠ 0 := by omega
  simp [cmd, cmdParent, h0, h1a, h1b, h3, h4, h5, cmdSend_complete os lines 6 hw, h6, h7, h8]

theorem written_writes (fd : Int) (lines : List CStr) (tail : List Call) :
    written fd (lines.map (Call.write fd) ++ tail) = lines.flatten ++ written fd tail := by
  induction lines with
  | nil => simp
  | cons l ls ih => simp [written, ih]

theorem cmdChild_diag (os : OS) (st : Int) (m : Option String)
    (h : (cmdChild os).out = Outcome.exit st m) :
    (st = FAILURE ∧ ∃ d ∈ cmdDiags, m = some d) ∨ (st = SUCCESS ∧ m = none) := by
  unfold cmdChild at h
  simp only at h
  split_ifs at h
  any_goals
    simp only [error, Outcome.exit.injEq] at h
    first
      | exact Or.inr ⟨h.1.symm, h.2.symm⟩
      | exact Or.inl ⟨h.1.symm, _, by decide, h.2.symm⟩

theorem cmd_diag (os : OS) (lines : Option (List CStr)) (st : Int) (m : Option String)
    (h : (cmd os lines).out = Outcome.exit st m) :
    (st = FAILURE ∧ ∃ d ∈ cmdDiags, m = some d) ∨ (st = SUCCESS ∧ m = none) := by
  unfold cmd at h
  simp only at h
  split_ifs at h
  · simp only [error, Outcome.exit.injEq] at h
    exact Or.inl ⟨h.1.symm, _, by decide, h.2.symm⟩
  · simp only [error, Outcome.exit.injEq] at h
    exact Or.inl ⟨h.1.symm, _, by decide, h.2.symm⟩
  · exact cmdChild_diag os st m h
  · exact Or.inl (cmdParent_diag os _ lines st m h)

/-! ### The whole of `cpw` -/

theorem cstr_line (x : CStr) (h : ∀ c ∈ x, c ≠ EOS) : cstr (x ++ [10, EOS]) = x ++ [10] := by
  have : x ++ [10, EOS] = (x ++ [10]) ++ EOS :: [] := by simp
  rw [this, cstr_append_eos]
  apply cstr_eq_self
  intro c hc
  rcases List.mem_append.1 hc with h1 | h1
  · exact h c h1
  · simp only [List.mem_singleton] at h1
    rw [h1]; decide

theorem zerofree_line (x : CStr) (h : ∀ c ∈ x, c ≠ EOS) :
    zerofree (x ++ [10, EOS]) = List.replicate (x ++ [10, EOS]).length 0 := by
  have hc := cstr_line x h
  have hlen : strlen (x ++ [10, EOS]) = x.length + 1 := by
    rw [strlen_eq, hc]; simp
  unfold zerofree memset
  simp only [hlen]
  have : (x ++ [10, EOS]).drop (x.length + 1) = [0] := by
    have e : x ++ [10, EOS] = (x ++ [10]) ++ [EOS] := by simp
    rw [e, List.drop_left' (by simp)]
    rfl
  rw [this]
  have e2 : (x ++ [10, EOS]).length = x.length + 1 + 1 := by simp
  rw [e2, List.replicate_succ' (x.length + 1)]

theorem cpw_eos_cpw : ∀ c ∈ ascii "cpw ", c ≠ EOS := by decide

theorem cpwChecks_build (g : Nat → Nat) (user password : CStr)
    (hc : cpwChecks user password = none) :
    cpwBuild (stackLine g) user password =
      some [ascii "cpw " ++ user ++ [10, EOS], password ++ [10, EOS], password ++ [10, EOS]] := by
  obtain ⟨⟨hu, hua⟩, hp, hpa⟩ := (cpwChecks_none user password).1 hc
  have h := cpwBuild_spec (stackLine g) user password
    (by rw [stackLine_length]; unfold LINELENGTH; omega)
    (by rw [stackLine_length]; unfold LINELENGTH; omega)
  rw [cstr_eq_self user (aliens_false_no_eos user _ hua),
    cstr_eq_self password (aliens_false_no_eos password _ hpa)] at h
  exact h

theorem cpw_run (w : World) (user password : CStr)
    (hs : ∃ t, cpwSignals w.sigret w.sigtable = Outcome.ret t)
    (hc : cpwChecks user password = none) :
    cpw w user password =
      match (cmd w.os (some (cpwLines user password))).out with
      | Outcome.ret status =>
        ⟨Outcome.ret status, (cmd w.os (some (cpwLines user password))).calls,
          [List.replicate (ascii "cpw " ++ user ++ [10, EOS]).length 0,
           List.replicate (password ++ [10, EOS]).length 0,
           List.replicate (password ++ [10, EOS]).length 0]⟩
      | o =>
        ⟨o, (cmd w.os (some (cpwLines user password))).calls,
          [ascii "cpw " ++ user ++ [10, EOS], password ++ [10, EOS], password ++ [10, EOS]]⟩ := by
  obtain ⟨t, ht⟩ := hs
  obtain ⟨⟨hu, hua⟩, hp, hpa⟩ := (cpwChecks_none user password).1 hc
  have hu0 := aliens_false_no_eos user _ hua
  have hp0 := aliens_false_no_eos password _ hpa
  have hcu0 : ∀ c ∈ ascii "cpw " ++ user, c ≠ EOS := by
    intro c hcm
    rcases List.mem_append.1 hcm with h1 | h1
    · exact cpw_eos_cpw c h1
    · exact hu0 c h1
  have e0 : cstr (ascii "cpw " ++ user ++ [10, EOS]) = ascii "cpw " ++ user ++ ascii "\n" :=
    cstr_line _ hcu0
  have e1 : cstr (password ++ [10, EOS]) = password ++ ascii "\n" := cstr_line _ hp0
  have z0 := zerofree_line _ hcu0
  have z1 := zerofree_line _ hp0
  unfold cpw
  rw [ht]
  simp only [hc, cpwChecks_build w.garbage user password hc, List.map_cons, List.map_nil,
    e0, e1, z0, z1, cpwLines]

theorem cpw_out (w : World) (user password : CStr)
    (hs : ∃ t, cpwSignals w.sigret w.sigtable = Outcome.ret t) :
    (cpw w user password).out =
      match cpwChecks user password with
      | some m => error m
      | none => (cmd w.os (some (cpwLines user password))).out := by
  cases hc : cpwChecks user password with
  | some m =>
    obtain ⟨t, ht⟩ := hs
    simp [cpw, ht, hc]
  | none =>
    rw [cpw_run w user password hs hc]
    cases (cmd w.os (some (cpwLines user password))).out <;> rfl

theorem cpwCheckUser_diag (user : CStr) (m : String) (h : cpwCheckUser user = some m) :
    m = "Username too long" ∨ m = "Alien characters in username" := by
  unfold cpwCheckUser at h
  split_ifs at h
  · exact Or.inl (Option.some.inj h).symm
  · exact Or.inr (Option.some.inj h).symm

theorem cpwCheckPassword_diag (password : CStr) (m : String)
    (h : cpwCheckPassword password = some m) :
    m = "Password too long" ∨ m = "Alien characters in password" := by
  unfold cpwCheckPassword at h
  split_ifs at h
  · exact Or.inl (Option.some.inj h).symm
  · exact Or.inr (Option.some.inj h).symm

theorem cmd_not_diag (os : OS) (lines : Option (List CStr)) (m : String)
    (hm : m ∉ cmdDiags) : (cmd os lines).out ≠ Outcome.exit 1 (some m) := by
  intro h
  rcases cmd_diag os lines 1 (some m) h with ⟨-, d, hd, e⟩ | ⟨-, e⟩
  · rw [Option.some.inj e] at hm
    exact hm hd
  · exact Option.noConfusion e

/-- C3. Length limit: the user checks of `cpw` end with "Username too long"
exactly when the user string is longer than 512, the password checks with
"Password too long" exactly when the password is longer than 512; the same
holds of the error with which the process exits with status 1 (the password
being tested once the user string has passed).  The length test comes before
the character test, so a string that is too long and holds illegal
characters is reported as too long; a length of exactly 512 is not rejected
for length and a secret of 513 legal characters is. -/
theorem length_limit :
    (∀ user : CStr, cpwCheckUser user = some "Username too long" ↔ 512 < user.length) ∧
    (∀ password : CStr,
      cpwCheckPassword password = some "Password too long" ↔ 512 < password.length) ∧
    (∀ (w : World) (user password : CStr),
      (∃ t, cpwSignals w.sigret w.sigtable = Outcome.ret t) →
      ((cpw w user password).out = Outcome.exit 1 (some "Username too long") ↔
        512 < user.length)) ∧
    (∀ (w : World) (user password : CStr),
      (∃ t, cpwSignals w.sigret w.sigtable = Outcome.ret t) → cpwCheckUser user = none →
      ((cpw w user password).out = Outcome.exit 1 (some "Password too long") ↔
        512 < password.length)) ∧
    (∀ s : CStr, 512 < s.length → aliens s USERCHARS = true →
      cpwCheckUser s = some "Username too long") ∧
    (∀ s : CStr, 512 < s.length → aliens s PASSCHARS = true →
      cpwCheckPassword s = some "Password too long") ∧
    (∀ s : CStr, s.length = 512 →
      cpwCheckUser s ≠ some "Username too long" ∧
      cpwCheckPassword s ≠ some "Password too long") ∧
    (∀ s : CStr, s.length = 513 → aliens s PASSCHARS = false →
      cpwCheckPassword s = some "Password too long") := by
  refine ⟨cpwCheckUser_long, cpwCheckPassword_long, ?_, ?_, ?_, ?_, ?_, ?_⟩
  · intro w user password hs
    rw [cpw_out w user password hs]
    constructor
    · intro h
      cases hu : cpwCheckUser user with
      | some m =>
        simp only [cpwChecks, hu, error, Outcome.exit.injEq, Option.some.injEq] at h
        rw [h.2] at hu
        exact (cpwCheckUser_long user).1 hu
      | none =>
        cases hp : cpwCheckPassword password with
        | some m =>
          simp only [cpwChecks, hu, hp, error, Outcome.exit.injEq, Option.some.injEq] at h
          rcases cpwCheckPassword_diag password m hp with e | e
          · rw [e] at h; exact absurd h.2 (by decide)
          · rw [e] at h; exact absurd h.2 (by decide)
        | none =>
          simp only [cpwChecks, hu, hp] at h
          exact absurd h (cmd_not_diag _ _ _ (by decide))
    · intro h
      have hu := (cpwCheckUser_long user).2 h
      simp [cpwChecks, hu, error, FAILURE]
  · intro w user password hs hu
    rw [cpw_out w user password hs]
    constructor
    · intro h
      cases hp : cpwCheckPassword password with
      | some m =>
        simp only [cpwChecks, hu, hp, error, Outcome.exit.injEq, Option.some.injEq] at h
        rw [h.2] at hp
        exact (cpwCheckPassword_long password).1 hp
      | none =>
        simp only [cpwChecks, hu, hp] at h
        exact absurd h (cmd_not_diag _ _ _ (by decide))
    · intro h
      have hp := (cpwCheckPassword_long password).2 h
      simp [cpwChecks, hu, hp, error, FAILURE]
  · intro s h _
    exact (cpwCheckUser_long s).2 h
  · intro s h _
    exact (cpwCheckPassword_long s).2 h
  · intro s h
    constructor
    · intro e
      have := (cpwCheckUser_long s).1 e
      omega
    · intro e
      have := (cpwCheckPassword_long s).1 e
      omega
  · intro s h _
    exact (cpwCheckPassword_long s).2 (by omega)

/-- A secret of 513 letters `a` is rejected as too long, whatever else
happens; a user name of 512 letters is not rejected for its length. -/
theorem length_limit_witness :
    cpwCheckPassword (List.replicate 513 0x61) = some "Password too long" ∧
    cpwCheckUser (List.replicate 512 0x61) ≠ some "Username too long" ∧
    ((cpw worldPipeFails (List.replicate 513 0x61) (ascii "Secr3t")).out =
      Outcome.exit 1 (some "Username too long")) :=
  ⟨(length_limit.2.1 (List.replicate 513 0x61)).2
      (by rw [List.length_replicate]; omega),
   (length_limit.2.2.2.2.2.2.1 (List.replicate 512 0x61) (List.length_replicate _ _)).1,
   (length_limit.2.2.1 worldPipeFails (List.replicate 513 0x61) (ascii "Secr3t")
      ⟨_, rfl⟩).2 (by rw [List.length_replicate]; omega)⟩

theorem one_newline (x : CStr) (h : ∀ c ∈ x, 0x20 ≤ c) :
    (x ++ ascii "\n").count 10 = 1 ∧ (x ++ ascii "\n").getLast? = some 10 := by
  have e : ascii "\n" = [10] := by decide
  have hx : x.count 10 = 0 := by
    rw [List.count_eq_zero]
    intro hm
    have := h 10 hm
    omega
  rw [e]
  constructor
  · rw [List.count_append, hx]; rfl
  · simp

/-- C4. For every user and password that pass the checks of `cpw`, the blocks
assembled in `line` hold exactly the strings "cpw " ++ user ++ "\n",
password ++ "\n", password ++ "\n", in this order; they are the list `cmd` is
run on; and each of them holds exactly one newline byte, its last byte. -/
theorem scripted_lines (w : World) (user password : CStr)
    (hu : user.length ≤ 512) (hua : aliens user USERCHARS = false)
    (hp : password.length ≤ 512) (hpa : aliens password PASSCHARS = false) :
    (∃ blocks, cpwBuild (stackLine w.garbage) user password = some blocks ∧
      blocks.map cstr =
        [ascii "cpw " ++ user ++ ascii "\n", password ++ ascii "\n", password ++ ascii "\n"]) ∧
    ((∃ t, cpwSignals w.sigret w.sigtable = Outcome.ret t) →
      (cpw w user password).calls =
        (cmd w.os (some [ascii "cpw " ++ user ++ ascii "\n", password ++ ascii "\n",
          password ++ ascii "\n"])).calls) ∧
    (∀ l ∈ [ascii "cpw " ++ user ++ ascii "\n", password ++ ascii "\n", password ++ ascii "\n"],
      l.count 10 = 1 ∧ l.getLast? = some 10) := by
  have hc : cpwChecks user password = none :=
    (cpwChecks_none user password).2 ⟨⟨hu, hua⟩, hp, hpa⟩
  have hu0 := aliens_false_no_eos user _ hua
  have hp0 := aliens_false_no_eos password _ hpa
  have hcu0 : ∀ c ∈ ascii "cpw " ++ user, c ≠ EOS := by
    intro c hcm
    rcases List.mem_append.1 hcm with h1 | h1
    · exact cpw_eos_cpw c h1
    · exact hu0 c h1
  refine ⟨⟨_, cpwChecks_build w.garbage user password hc, ?_⟩, ?_, ?_⟩
  · simp only [List.map_cons, List.map_nil, cstr_line _ hcu0, cstr_line _ hp0]
    rfl
  · intro hs
    rw [cpw_run w user password hs hc]
    cases (cmd w.os (some (cpwLines user password))).out <;> rfl
  · have hu1 : ∀ c ∈ ascii "cpw " ++ user, 0x20 ≤ c := by
      intro c hcm
      rcases List.mem_append.1 hcm with h1 | h1
      · exact (by decide : ∀ c ∈ ascii "cpw ", 0x20 ≤ c) c h1
      · exact ((aliens_sound_aux user _ hua) c h1).1.1
    have hp1 : ∀ c ∈ password, 0x20 ≤ c := fun c h1 =>
      ((aliens_sound_aux password _ hpa) c h1).1.1
    intro l hl
    simp only [List.mem_cons, List.mem_singleton, List.not_mem_nil, or_false, or_self] at hl
    rcases hl with e | e
    · rw [e]; exact one_newline _ hu1
    · rw [e]; exact one_newline _ hp1

/-- The user "s_alice" with the password "Secr3t". -/
theorem scripted_lines_witness :
    (∃ blocks, cpwBuild (stackLine worldExit3.garbage) (ascii "s_alice") (ascii "Secr3t") =
        some blocks ∧
      blocks.map cstr = [ascii "cpw s_alice\n", ascii "Secr3t\n", ascii "Secr3t\n"]) ∧
    (cpw worldExit3 (ascii "s_alice") (ascii "Secr3t")).calls =
      (cmd osExit3 (some [ascii "cpw s_alice\n", ascii "Secr3t\n", ascii "Secr3t\n"])).calls :=
  have h := scripted_lines worldExit3 (ascii "s_alice") (ascii "Secr3t")
    (by decide) (by decide) (by decide) (by decide)
  ⟨h.1, h.2.1 ⟨_, rfl⟩⟩

theorem sig_ret_or_exit (r : SigRet) (s : Nat) (d : Disposition) (t : SigTable) :
    (∃ t2, sig r s d t = Outcome.ret t2) ∨ ∃ st m, sig r s d t = Outcome.exit st m := by
  unfold sig
  split_ifs
  · exact Or.inr ⟨_, _, rfl⟩
  · exact Or.inr ⟨_, _, rfl⟩
  · exact Or.inl ⟨_, rfl⟩

theorem andThen_ret_or_exit {α β : Type} (o : Outcome α) (f : α → Outcome β)
    (ho : (∃ a, o = Outcome.ret a) ∨ ∃ st m, o = Outcome.exit st m)
    (hf : ∀ a, (∃ b, f a = Outcome.ret b) ∨ ∃ st m, f a = Outcome.exit st m) :
    (∃ b, o.andThen f = Outcome.ret b) ∨ ∃ st m, o.andThen f = Outcome.exit st m := by
  rcases ho with ⟨a, e⟩ | ⟨st, m, e⟩
  · rw [e]; exact hf a
  · rw [e]; exact Or.inr ⟨st, m, rfl⟩

theorem cpwSignals_ret_or_exit (r : Nat → SigRet) (t : SigTable) :
    (∃ t2, cpwSignals r t = Outcome.ret t2) ∨ ∃ st m, cpwSignals r t = Outcome.exit st m := by
  unfold cpwSignals
  refine andThen_ret_or_exit _ _ (sig_ret_or_exit _ _ _ _) fun _ => ?_
  refine andThen_ret_or_exit _ _ (sig_ret_or_exit _ _ _ _) fun _ => ?_
  refine andThen_ret_or_exit _ _ (sig_ret_or_exit _ _ _ _) fun _ => ?_
  refine andThen_ret_or_exit _ _ (sig_ret_or_exit _ _ _ _) fun _ => ?_
  refine andThen_ret_or_exit _ _ (sig_ret_or_exit _ _ _ _) fun _ => ?_
  refine andThen_ret_or_exit _ _ (sig_ret_or_exit _ _ _ _) fun _ => ?_
  refine andThen_ret_or_exit _ _ (sig_ret_or_exit _ _ _ _) fun _ => ?_
  refine andThen_ret_or_exit _ _ (sig_ret_or_exit _ _ _ _) fun _ => ?_
  exact sig_ret_or_exit _ _ _ _

theorem cmdStatus_in_bounds (w : Nat) : cmdStatus w ≠ Outcome.outOfBounds := by
  unfold cmdStatus
  split_ifs <;> simp [error]

theorem cmdChild_in_bounds (os : OS) : (cmdChild os).out ≠ Outcome.outOfBounds := by
  unfold cmdChild
  simp only
  split_ifs <;> simp [error]

theorem cmdParent_in_bounds (os : OS) (pid : Int) (lines : Option (List CStr)) :
    (cmdParent os pid lines).out ≠ Outcome.outOfBounds := by
  unfold cmdParent
  simp only
  split_ifs
  any_goals simp [error]
  cases lines with
  | none => simp [error]
  | some ls =>
    simp only
    rcases cmdSend_diag os ls 6 with hs | hs | hs
    · rw [hs]
      simp only
      split_ifs
      any_goals simp [error]
      exact cmdStatus_in_bounds _
    · rw [hs]; simp [error]
    · rw [hs]; simp [error]

theorem cmd_in_bounds (os : OS) (lines : Option (List CStr)) :
    (cmd os lines).out ≠ Outcome.outOfBounds := by
  unfold cmd
  simp only
  split_ifs
  · simp [error]
  · simp [error]
  · exact cmdChild_in_bounds os
  · exact cmdParent_in_bounds os _ lines

theorem cpw_checks_first (w : World) (user password : CStr) (m : String)
    (hc : cpwChecks user password = some m) :
    (cpw w user password).heap = [] ∧ (cpw w user password).calls = [] ∧
      ∃ st d, (cpw w user password).out = Outcome.exit st d := by
  unfold cpw
  rcases cpwSignals_ret_or_exit w.sigret w.sigtable with ⟨t, e⟩ | ⟨st, d, e⟩
  · rw [e]
    simp only [hc, error]
    exact ⟨trivial, trivial, _, _, rfl⟩
  · rw [e]
    exact ⟨rfl, rfl, _, _, rfl⟩

/-- C10. The buffer `line` never overflows: no run of `cpw` ends in a store
outside `line`, whatever the user and the password; a string longer than 512
ends the run at its length test, before any block is assembled and before
`cmd` makes a call; no block is assembled unless both length tests have
passed; and for every user and password of at most 512 characters every store
of the assembly stays inside the `LINELENGTH` bytes of `line`, each assembled
string taking with its NUL at most 4 + 512 + 1 + 1 = 518 <= 2048 bytes. -/
theorem line_in_bounds :
    (∀ (w : World) (user password : CStr),
      (cpw w user password).out ≠ Outcome.outOfBounds) ∧
    (∀ (w : World) (user password : CStr),
      KRB_LIMIT < user.length ∨ PASSWORD_LIMIT < password.length →
      (cpw w user password).heap = [] ∧ (cpw w user password).calls = [] ∧
      ∃ st d, (cpw w user password).out = Outcome.exit st d) ∧
    (∀ (w : World) (user password : CStr), (cpw w user password).heap ≠ [] →
      user.length ≤ KRB_LIMIT ∧ password.length ≤ PASSWORD_LIMIT) ∧
    (∀ (g : Nat → Nat) (user password : CStr),
      user.length ≤ KRB_LIMIT → password.length ≤ PASSWORD_LIMIT →
      ∃ blocks, cpwBuild (stackLine g) user password = some blocks ∧ blocks.length = 3 ∧
        ∀ b ∈ blocks, b.length = strlen b + 1 ∧ b.length ≤ 4 + 512 + 1 + 1) ∧
    4 + 512 + 1 + 1 ≤ LINELENGTH := by
  refine ⟨?_, ?_, ?_, ?_, by decide⟩
  · intro w user password
    cases hc : cpwChecks user password with
    | some m =>
      obtain ⟨-, -, st, d, e⟩ := cpw_checks_first w user password m hc
      rw [e]
      exact Outcome.noConfusion
    | none =>
      rcases cpwSignals_ret_or_exit w.sigret w.sigtable with ⟨t, hsig⟩ | ⟨st, d, hsig⟩
      · rw [cpw_out w user password ⟨t, hsig⟩, hc]
        exact cmd_in_bounds _ _
      · simp [cpw, hsig]
  · intro w user password hlong
    cases hc : cpwChecks user password with
    | none =>
      have := (cpwChecks_none user password).1 hc
      unfold KRB_LIMIT PASSWORD_LIMIT at hlong
      omega
    | some m => exact cpw_checks_first w user password m hc
  · intro w user password h
    cases hc : cpwChecks user password with
    | some m => exact absurd (cpw_checks_first w user password m hc).1 h
    | none =>
      have := (cpwChecks_none user password).1 hc
      exact ⟨this.1.1, this.2.1⟩
  · intro g user password hu hp
    unfold KRB_LIMIT at hu
    unfold PASSWORD_LIMIT at hp
    refine ⟨_, cpwBuild_spec (stackLine g) user password
      (by rw [stackLine_length]; unfold LINELENGTH; omega)
      (by rw [stackLine_length]; unfold LINELENGTH; omega), rfl, ?_⟩
    have hlu := cstr_length_le user
    have hlp := cstr_length_le password
    have key : ∀ x : CStr, (∀ c ∈ x, c ≠ EOS) → strlen (x ++ [10, EOS]) = x.length + 1 := by
      intro x hx
      rw [strlen_eq, cstr_line x hx]; simp
    have nz : ∀ y : List Nat, ∀ c ∈ cstr y, c ≠ EOS := by
      intro y c hc
      have := List.mem_takeWhile_imp hc
      simpa using this
    intro b hb
    simp only [List.mem_cons, List.mem_singleton, List.not_mem_nil, or_false, or_self] at hb
    rcases hb with e | e
    · have hz : ∀ c ∈ ascii "cpw " ++ cstr user, c ≠ EOS := by
        intro c hcm
        rcases List.mem_append.1 hcm with h1 | h1
        · exact cpw_eos_cpw c h1
        · exact nz user c h1
      rw [e, key _ hz]
      simp [ascii]
      omega
    · rw [e, key _ (nz password)]
      simp
      omega

/-- A user name and a password of 512 characters each are assembled inside
the buffer; a user name of 3000 characters ends the run at the length test,
with no block assembled and no store outside the buffer. -/
theorem line_in_bounds_witness :
    (∃ blocks, cpwBuild (stackLine (fun _ => 0xAA)) (List.replicate 512 0x61)
        (List.replicate 512 0x62) = some blocks ∧ blocks.length = 3 ∧
      ∀ b ∈ blocks, b.length = strlen b + 1 ∧ b.length ≤ 4 + 512 + 1 + 1) ∧
    (cpw worldExit3 (List.replicate 3000 0x61) (ascii "Secr3t")).out ≠ Outcome.outOfBounds ∧
    (cpw worldExit3 (List.replicate 3000 0x61) (ascii "Secr3t")).heap = [] ∧
    (cpw worldExit3 (List.replicate 3000 0x61) (ascii "Secr3t")).calls = [] :=
  ⟨line_in_bounds.2.2.2.1 (fun _ => 0xAA) (List.replicate 512 0x61) (List.replicate 512 0x62)
      (by rw [List.length_replicate]; decide) (by rw [List.length_replicate]; decide),
   line_in_bounds.1 worldExit3 (List.replicate 3000 0x61) (ascii "Secr3t"),
   (line_in_bounds.2.1 worldExit3 (List.replicate 3000 0x61) (ascii "Secr3t")
      (Or.inl (by rw [List.length_replicate]; decide))).1,
   (line_in_bounds.2.1 worldExit3 (List.replicate 3000 0x61) (ascii "Secr3t")
      (Or.inl (by rw [List.length_replicate]; decide))).2.1⟩

/-! ### Erasure of the secret -/

theorem osExit3_passes :
    cmdPasses osExit3 (cpwLines (ascii "s_alice") (ascii "Secr3t")) = true := by decide

theorem worldExit3_out :
    (cpw worldExit3 (ascii "s_alice") (ascii "Secr3t")).out = Outcome.ret 3 := by
  rw [cpw_out worldExit3 _ _ ⟨_, rfl⟩]
  have hc : cpwChecks (ascii "s_alice") (ascii "Secr3t") = none := by decide
  rw [hc]
  show (cmd osExit3 (some (cpwLines (ascii "s_alice") (ascii "Secr3t")))).out = _
  rw [cmdPasses_run osExit3 _ osExit3_passes]
  decide

/-- C5 as stated fails: when `pipe` fails, `cmd` leaves through `error` and
the process ends with status 1 while the three blocks still hold the command
line and, twice, the password "Secr3t". -/
theorem erasure_counterexample :
    (cpw worldPipeFails (ascii "s_alice") (ascii "Secr3t")).out =
      Outcome.exit 1 (some "Error %d creating pipe") ∧
    (cpw worldPipeFails (ascii "s_alice") (ascii "Secr3t")).heap =
      [ascii "cpw s_alice\n" ++ [0], ascii "Secr3t\n" ++ [0], ascii "Secr3t\n" ++ [0]] := by
  have hc : cpwChecks (ascii "s_alice") (ascii "Secr3t") = none := by decide
  rw [cpw_run worldPipeFails _ _ ⟨_, rfl⟩ hc]
  have hcmd : cmd worldPipeFails.os (some (cpwLines (ascii "s_alice") (ascii "Secr3t"))) =
      ⟨[Call.pipe], error "Error %d creating pipe"⟩ := by
    simp [cmd, worldPipeFails, osPipeFails]
  rw [hcmd]
  exact ⟨rfl, by decide⟩

/-- C5, amended. Secret erasure on the normal return: once `cpw` has built the
three blocks, when `cmd` returns and `cpw` returns its status every byte of
each block is zero when the block is released.  When `cmd` instead leaves
through `exit`, the process ends with the three blocks as they were built,
not erased. -/
theorem erasure_on_return (w : World) (user password : CStr) :
    (∀ status, (cpw w user password).out = Outcome.ret status →
      ∃ blocks, cpwBuild (stackLine w.garbage) user password = some blocks ∧
        blocks.length = 3 ∧
        (cpw w user password).heap = blocks.map (fun b => List.replicate b.length 0)) ∧
    ((∃ t, cpwSignals w.sigret w.sigtable = Outcome.ret t) →
      cpwChecks user password = none →
      ∀ st d, (cmd w.os (some (cpwLines user password))).out = Outcome.exit st d →
        (cpw w user password).out = Outcome.exit st d ∧
        ∃ blocks, cpwBuild (stackLine w.garbage) user password = some blocks ∧
          (cpw w user password).heap = blocks) := by
  constructor
  · intro status h
    cases hsig : cpwSignals w.sigret w.sigtable with
    | exit st d => simp [cpw, hsig] at h
    | exec => simp [cpw, hsig] at h
    | outOfBounds => simp [cpw, hsig] at h
    | ret t =>
      cases hc : cpwChecks user password with
      | some m => simp [cpw, hsig, hc, error] at h
      | none =>
        refine ⟨_, cpwChecks_build w.garbage user password hc, rfl, ?_⟩
        rw [cpw_run w user password ⟨t, hsig⟩ hc] at h ⊢
        cases hcmd : (cmd w.os (some (cpwLines user password))).out with
        | ret a => simp
        | exit st d => rw [hcmd] at h; simp at h
        | exec => rw [hcmd] at h; simp at h
        | outOfBounds => rw [hcmd] at h; simp at h
  · intro hs hc st d hcmd
    rw [cpw_run w user password hs hc, hcmd]
    exact ⟨rfl, _, cpwChecks_build w.garbage user password hc, rfl⟩

/-- In the world where every call succeeds and the child exits with 3, `cpw`
returns 3 and releases three blocks of zero bytes. -/
theorem erasure_on_return_witness :
    (cpw worldExit3 (ascii "s_alice") (ascii "Secr3t")).out = Outcome.ret 3 ∧
    ∃ blocks, cpwBuild (stackLine worldExit3.garbage) (ascii "s_alice") (ascii "Secr3t") =
        some blocks ∧ blocks.length = 3 ∧
      (cpw worldExit3 (ascii "s_alice") (ascii "Secr3t")).heap =
        blocks.map (fun b => List.replicate b.length 0) :=
  ⟨worldExit3_out,
   (erasure_on_return worldExit3 (ascii "s_alice") (ascii "Secr3t")).1 3 worldExit3_out⟩

/-! ### The wait status -/

theorem wexitstatus_eq (w : Nat) : WEXITSTATUS w = (w >>> 8) &&& 0xff := by
  unfold WEXITSTATUS
  apply Nat.eq_of_testBit_eq
  intro i
  have e : (0xff : Nat) = 0xff00 >>> 8 := by decide
  simp only [Nat.testBit_shiftRight, Nat.testBit_and]
  rw [e, Nat.testBit_shiftRight]

theorem exit_status_encoding (c : Nat) (h : c < 256) :
    WIFEXITED (c <<< 8) = true ∧ WIFSIGNALED (c <<< 8) = false ∧
      (((c <<< 8) >>> 8) &&& 0xff) = c := by
  have e7 : (c <<< 8) &&& 0x7f = 0 := by
    have h7 : (0x7f : Nat) = 2 ^ 7 - 1 := by decide
    rw [h7, Nat.and_pow_two_sub_one_eq_mod, Nat.shiftLeft_eq]
    omega
  refine ⟨by simp [WIFEXITED, e7], ?_, ?_⟩
  · unfold WIFSIGNALED
    rw [e7]
    decide
  · have h8 : (0xff : Nat) = 2 ^ 8 - 1 := by decide
    rw [Nat.shiftLeft_shiftRight, h8, Nat.and_pow_two_sub_one_eq_mod]
    omega

theorem wifsignaled_not_exited (w : Nat) (h : WIFSIGNALED w = true) : WIFEXITED w = false := by
  unfold WIFSIGNALED at h
  unfold WIFEXITED
  by_contra hc
  simp only [Bool.not_eq_false, decide_eq_true_eq] at hc
  rw [hc] at h
  revert h
  decide

theorem main_out (w : World) (prog user password : CStr)
    (hs : ∃ t, cpwSignals w.sigret w.sigtable = Outcome.ret t)
    (hn : ((ascii "s_").isPrefixOf user || (ascii "t_").isPrefixOf user) = true)
    (hc : cpwChecks user password = none) :
    (main w [prog, user, password]).out =
      match (cmd w.os (some (cpwLines user password))).out with
      | Outcome.ret status => Outcome.exit status none
      | o => o := by
  have hn2 : (!(ascii "s_").isPrefixOf user && !(ascii "t_").isPrefixOf user) = false := by
    rw [← Bool.not_or, hn]; rfl
  have ho := cpw_out w user password hs
  rw [hc] at ho
  simp only at ho
  simp only [main, List.length_cons, List.length_nil, List.getD_cons_succ, List.getD_cons_zero,
    hn2, ho]
  cases (cmd w.os (some (cpwLines user password))).out <;> simp

/-- C6. Classification of the wait status.  When the run of `cmd` reaches
`waitpid` and it succeeds: (i) for a status of a normal exit `cmd` returns the
exit code `(w >> 8) & 0xff`, which lies in 0..255, and `main` exits with that
status (a child ending with `exit (c)`, status `c << 8`, gives `c`); (ii) for a
status of a death by signal the process ends with status 1; (iii) for any
other status the process ends with status 1; `cmd` returns a value only in
case (i). -/
theorem wait_status :
    (∀ (os : OS) (lines : List CStr), cmdPasses os lines = true →
      (WIFEXITED os.wstatus = true →
        (cmd os (some lines)).out = Outcome.ret (((os.wstatus >>> 8) &&& 0xff : Nat) : Int) ∧
        (os.wstatus >>> 8) &&& 0xff ≤ 255) ∧
      (WIFSIGNALED os.wstatus = true →
        (cmd os (some lines)).out = Outcome.exit 1 (some "Child process %d exited on %d")) ∧
      (WIFEXITED os.wstatus = false → WIFSIGNALED os.wstatus = false →
        (cmd os (some lines)).out =
          Outcome.exit 1 (some "Weird exit from waitpid - confused")) ∧
      (∀ c, (cmd os (some lines)).out = Outcome.ret c → WIFEXITED os.wstatus = true)) ∧
    (∀ (w : World) (prog user password : CStr),
      (∃ t, cpwSignals w.sigret w.sigtable = Outcome.ret t) →
      ((ascii "s_").isPrefixOf user || (ascii "t_").isPrefixOf user) = true →
      cpwChecks user password = none →
      cmdPasses w.os (cpwLines user password) = true →
      (WIFEXITED w.os.wstatus = true →
        (main w [prog, user, password]).out =
          Outcome.exit (((w.os.wstatus >>> 8) &&& 0xff : Nat) : Int) none) ∧
      (WIFEXITED w.os.wstatus = false →
        ∃ d, (main w [prog, user, password]).out = Outcome.exit 1 (some d))) ∧
    (∀ c, c < 256 → WIFEXITED (c <<< 8) = true ∧ WIFSIGNALED (c <<< 8) = false ∧
      (((c <<< 8) >>> 8) &&& 0xff) = c) := by
  have hA : ∀ (os : OS) (lines : List CStr), cmdPasses os lines = true →
      (cmd os (some lines)).out = cmdStatus os.wstatus := by
    intro os lines h
    rw [cmdPasses_run os lines h]
  refine ⟨?_, ?_, exit_status_encoding⟩
  · intro os lines h
    rw [hA os lines h]
    refine ⟨?_, ?_, ?_, ?_⟩
    · intro he
      refine ⟨?_, Nat.and_le_right⟩
      simp [cmdStatus, he, wexitstatus_eq]
    · intro hsg
      have he := wifsignaled_not_exited _ hsg
      simp [cmdStatus, he, hsg, error, FAILURE]
    · intro he hsg
      simp [cmdStatus, he, hsg, error, FAILURE]
    · intro c hc
      by_contra he
      simp only [Bool.not_eq_true] at he
      unfold cmdStatus at hc
      rw [he] at hc
      simp only [Bool.false_eq_true, if_false] at hc
      split_ifs at hc <;> simp [error] at hc
  · intro w prog user password hs hn hc hp
    rw [main_out w prog user password hs hn hc, hA _ _ hp]
    constructor
    · intro he
      simp [cmdStatus, he, wexitstatus_eq]
    · intro he
      unfold cmdStatus
      rw [he]
      simp only [Bool.false_eq_true, if_false]
      split_ifs
      · exact ⟨_, rfl⟩
      · exact ⟨_, rfl⟩

/-- The child exits with 3 (status 0x300): `cmd` returns 3 and the outer
process exits with status 3. -/
theorem wait_status_witness :
    (cmd osExit3 (some (cpwLines (ascii "s_alice") (ascii "Secr3t")))).out = Outcome.ret 3 ∧
    (main worldExit3 [ascii "cpw", ascii "s_alice", ascii "Secr3t"]).out =
      Outcome.exit 3 none :=
  ⟨((wait_status.1 osExit3 (cpwLines (ascii "s_alice") (ascii "Secr3t")) osExit3_passes).1
      (by decide)).1,
   (wait_status.2.1 worldExit3 (ascii "cpw") (ascii "s_alice") (ascii "Secr3t") ⟨_, rfl⟩
      (by decide) (by decide) osExit3_passes).1 (by decide)⟩

/-! ### Signals -/

theorem sig_ret (r : SigRet) (s : Nat) (d : Disposition) (t t2 : SigTable)
    (h : sig r s d t = Outcome.ret t2) : t2 = fun n => if n = s then d else t n := by
  unfold sig at h
  split_ifs at h
  · simp [error] at h
  · simp [error] at h
  · exact (Outcome.ret.inj h).symm

theorem andThen_ret {α β : Type} (o : Outcome α) (f : α → Outcome β) (b : β)
    (h : o.andThen f = Outcome.ret b) : ∃ a, o = Outcome.ret a ∧ f a = Outcome.ret b := by
  cases o with
  | ret a => exact ⟨a, rfl, h⟩
  | exit st d => simp [Outcome.andThen] at h
  | exec => simp [Outcome.andThen] at h
  | outOfBounds => simp [Outcome.andThen] at h

theorem cpwSignals_table (r : Nat → SigRet) (t0 t : SigTable)
    (h : cpwSignals r t0 = Outcome.ret t) :
    t = fun n =>
      if n = SIGUSR1 then Disposition.handler Handler.sighand
      else if n = SIGQUIT then Disposition.handler Handler.sighand
      else if n = SIGTERM then Disposition.handler Handler.sighand
      else if n = SIGHUP then Disposition.handler Handler.sighand
      else if n = SIGPIPE then Disposition.handler Handler.handpipe
      else if n = SIGTRAP then Disposition.SIG_IGN
      else if n = SIGTTIN then Disposition.SIG_IGN
      else if n = SIGTTOU then Disposition.SIG_IGN
      else if n = SIGCHLD then Disposition.handler Handler.handchld
      else t0 n := by
  unfold cpwSignals at h
  obtain ⟨t1, e1, h⟩ := andThen_ret _ _ _ h
  obtain ⟨t2, e2, h⟩ := andThen_ret _ _ _ h
  obtain ⟨t3, e3, h⟩ := andThen_ret _ _ _ h
  obtain ⟨t4, e4, h⟩ := andThen_ret _ _ _ h
  obtain ⟨t5, e5, h⟩ := andThen_ret _ _ _ h
  obtain ⟨t6, e6, h⟩ := andThen_ret _ _ _ h
  obtain ⟨t7, e7, h⟩ := andThen_ret _ _ _ h
  obtain ⟨t8, e8, h⟩ := andThen_ret _ _ _ h
  rw [sig_ret _ _ _ _ _ h, sig_ret _ _ _ _ _ e8, sig_ret _ _ _ _ _ e7, sig_ret _ _ _ _ _ e6,
    sig_ret _ _ _ _ _ e5, sig_ret _ _ _ _ _ e4, sig_ret _ _ _ _ _ e3, sig_ret _ _ _ _ _ e2,
    sig_ret _ _ _ _ _ e1]

/-- C7, the code at the interrupt signal.  After the nine `sig` calls of `cpw`
have succeeded, SIGHUP, SIGTERM, SIGQUIT and SIGUSR1 have the handler
`sighand`, and `sighand` ends the program with status 1 for each of the five
signal numbers SIGHUP, SIGINT, SIGTERM, SIGQUIT, SIGUSR1; but no `sig` call
names SIGINT, whose disposition is left as it was on entry. -/
theorem sigint_not_installed (r : Nat → SigRet) (t0 t : SigTable)
    (h : cpwSignals r t0 = Outcome.ret t) :
    t SIGINT = t0 SIGINT ∧
    t SIGHUP = Disposition.handler Handler.sighand ∧
    t SIGTERM = Disposition.handler Handler.sighand ∧
    t SIGQUIT = Disposition.handler Handler.sighand ∧
    t SIGUSR1 = Disposition.handler Handler.sighand ∧
    (∀ s ∈ [SIGHUP, SIGINT, SIGTERM, SIGQUIT, SIGUSR1],
      ∃ d, Handler.run Handler.sighand s = Outcome.exit 1 d) := by
  rw [cpwSignals_table r t0 t h]
  refine ⟨rfl, rfl, rfl, rfl, rfl, ?_⟩
  intro s hs
  simp only [List.mem_cons, List.mem_singleton, List.not_mem_nil, or_false] at hs
  rcases hs with e | e | e | e | e <;> rw [e] <;> exact ⟨_, rfl⟩

/-- With every signal at its default action on entry and every `sig` call
succeeding, SIGINT keeps the default action after the installation: it is not
handled by `sighand`. -/
theorem sigint_not_installed_witness :
    ∃ t, cpwSignals sigretOk sigtableDefault = Outcome.ret t ∧
      t SIGINT = Disposition.SIG_DFL ∧ t SIGINT ≠ Disposition.handler Handler.sighand ∧
      t SIGHUP = Disposition.handler Handler.sighand :=
  ⟨_, rfl,
    (sigint_not_installed sigretOk sigtableDefault _ rfl).1,
    by rw [(sigint_not_installed sigretOk sigtableDefault _ rfl).1]; decide,
    (sigint_not_installed sigretOk sigtableDefault _ rfl).2.1⟩

/-! ### Transmission -/

/-- C8. Ordered, exact transmission: in a run of `cmd` in which no call fails
and every write is complete, the calls are `pipe`, `fork`, `dup`, `dup2` of the
pipe's write end onto standard output, the two `close` of the pipe ends, then
one `write` per line, in list order, of exactly the characters of the line,
then `close` of standard output, the restoring `dup2` and `waitpid`; so the
bytes written are the concatenation of the lines, nothing before, between or
after, and the output is closed after the last write and before `waitpid`. -/
theorem ordered_transmission (os : OS) (lines : List CStr)
    (h : cmdPasses os lines = true) :
    (cmd os (some lines)).calls =
      [Call.pipe, Call.fork, Call.dup STDOUT_FILENO,
        Call.dup2 (os.pipefd WRITE_END) STDOUT_FILENO, Call.close (os.pipefd READ_END),
        Call.close (os.pipefd WRITE_END)] ++
      lines.map (Call.write STDOUT_FILENO) ++
      [Call.close STDOUT_FILENO, Call.dup2 (os.ret 2) STDOUT_FILENO,
        Call.waitpid (os.ret 1)] ∧
    written STDOUT_FILENO (cmd os (some lines)).calls = lines.flatten ∧
    (∀ fd, fd ≠ STDOUT_FILENO → written fd (cmd os (some lines)).calls = []) := by
  rw [cmdPasses_run os lines h]
  refine ⟨rfl, ?_, ?_⟩
  · simp only [List.append_assoc]
    simp [written, written_writes]
  · intro fd hfd
    have hw : ∀ (ls : List CStr) (tail : List Call),
        written fd (ls.map (Call.write STDOUT_FILENO) ++ tail) = written fd tail := by
      intro ls tail
      induction ls with
      | nil => rfl
      | cons l ls ih => simp [written, ih, Ne.symm hfd]
    simp only [List.append_assoc]
    simp [written, hw]

/-- The lines "cpw alice\n", "Secr3t!\n", "Secr3t!\n" arrive as
"cpw alice\nSecr3t!\nSecr3t!\n". -/
theorem ordered_transmission_witness :
    cmdPasses osCat catLines = true ∧
    written STDOUT_FILENO (cmd osCat (some catLines)).calls =
      ascii "cpw alice\nSecr3t!\nSecr3t!\n" :=
  ⟨by decide, (ordered_transmission osCat catLines (by decide)).2.1.trans (by decide)⟩

/-! ### Failures of system calls -/

/-- C9, the code at a failing `dup`.  When `dup (STDOUT_FILENO)` returns -1
the value is stored without a test: `cmd` goes on to redirect standard
output, close the pipe ends, write all three lines and close the output, and
ends through `error` only when the restoring `dup2 (-1, STDOUT_FILENO)` fails. -/
theorem dup_failure_goes_on :
    cmd osDupFails (some catLines) =
      ⟨[Call.pipe, Call.fork, Call.dup 1, Call.dup2 4 1, Call.close 3, Call.close 4,
        Call.write 1 (ascii "cpw alice\n"), Call.write 1 (ascii "Secr3t!\n"),
        Call.write 1 (ascii "Secr3t!\n"), Call.close 1, Call.dup2 (-1) 1],
       Outcome.exit 1 (some "Error %d restoring output in cmd")⟩ := by
  decide

end Cpw
